import Mathlib

/-!
Shallow embedding of the startup dispatcher in
`src/bentoml_cli/_internal/start.py` (the `start_http_server` command body
and its helpers), together with models of the stdlib operations it calls
(`str.split(sep, maxsplit)`, `dict(...)`, `json.loads`, `urllib.parse.urlparse`
restricted to the `scheme://host:port` shapes used here, `os.path` directory
probing as an oracle, and the `sys.path` mutation).

All definitions are executable and structurally recursive so that concrete
runs evaluate by `rfl` / `decide`.
-/

set_option autoImplicit false

universe u

/-- Python truthiness-based `a or b` for optional strings: `None` and the
empty string are falsy. Models `parsed.hostname or host`. -/
def pyOrStr (a b : Option String) : Option String :=
  match a with
  | none => b
  | some s => if s = "" then b else some s

/-- Python truthiness-based `a or b` for optional integers: `None` and `0`
are falsy. Models `parsed.port or port`. -/
def pyOrInt (a b : Option Int) : Option Int :=
  match a with
  | none => b
  | some n => if n = 0 then b else some n

/-- Python `api_workers or 1`: `None` and `0` become `1`. -/
def pyOrOne (a : Option Int) : Int :=
  match a with
  | none => 1
  | some n => if n = 0 then 1 else n

/-- The `\x7b` character (left curly brace), named to keep brace characters
out of literals. -/
def lbrace : Char := Char.ofNat 123

/-- The `\x7d` character (right curly brace). -/
def rbrace : Char := Char.ofNat 125

/-- Split a character list at every occurrence of `=`, Python
`s.split("=")` semantics: the result always has one more group than there
are separators, and groups may be empty. -/
def splitOnEqChars : List Char → List (List Char)
  | [] => [[]]
  | c :: cs =>
    let r := splitOnEqChars cs
    if c = '=' then [] :: r
    else
      match r with
      | [] => [[c]]
      | g :: gs => (c :: g) :: gs

/-- Python `s.split("=")` (no maxsplit) on strings. -/
def splitEqAll (s : String) : List String :=
  (splitOnEqChars s.data).map (fun l => String.mk l)

/-- Re-join a list of groups with `=` separators (used to model the
unsplit tail that `maxsplit` leaves intact). -/
def joinEq : List String → String
  | [] => ""
  | [s] => s
  | s :: rest => s ++ "=" ++ joinEq rest

/-- Collapse a full split down to at most three groups, modelling
Python `s.split("=", maxsplit=2)`: only the first two separators split,
the rest of the string stays in the third group. -/
def regroup2 (xs : List String) : List String :=
  match xs with
  | a :: b :: c :: rest => [a, b, joinEq (c :: rest)]
  | other => other

/-- Python `s.split("=", maxsplit=2)`, exactly as written on line 164 of
the source (`s.split("=", maxsplit=2)`). -/
def pySplit2 (s : String) : List String :=
  regroup2 (splitEqAll s)

/-- Python `s.split("=", maxsplit=1)`: split only at the first `=`. This is
the split the specification describes (claim reference definition). -/
def pySplit1 (s : String) : List String :=
  match splitEqAll s with
  | a :: b :: rest => [a, joinEq (b :: rest)]
  | other => other

/-! ### Python `dict` built from key/value pairs -/

/-- Python dict assignment `d[k] = v` on an insertion-ordered association
list: replace the value of an existing key in place, else append. -/
def pyDictUpd {α : Type u} : List (String × α) → String → α → List (String × α)
  | [], k, v => [(k, v)]
  | p :: rest, k, v => if p.1 = k then (k, v) :: rest else p :: pyDictUpd rest k v

/-- Python `dict(pairs)`: successive assignment of each pair, so a later
pair with the same key overwrites the earlier value. -/
def pyDictOf {α : Type u} (ps : List (String × α)) : List (String × α) :=
  ps.foldl (fun d p => pyDictUpd d p.1 p.2) []

/-- Dictionary lookup `d.get(k)`. -/
def lookupD {α : Type u} (d : List (String × α)) (k : String) : Option α :=
  (d.find? (fun q => q.1 == k)).map (fun q => q.2)

/-! ### JSON values and a model of `json.loads` -/

/-- JSON values as produced by `json.loads`; numbers keep their literal
text (their numeric interpretation is irrelevant to the dispatcher). -/
inductive JValue where
  | null : JValue
  | bool (b : Bool) : JValue
  | num (s : String) : JValue
  | str (s : String) : JValue
  | arr (xs : List JValue) : JValue
  | obj (kvs : List (String × JValue)) : JValue

/-- Skip JSON whitespace. -/
def skipWs : List Char → List Char
  | [] => []
  | c :: cs => if c = ' ' ∨ c = '\t' ∨ c = '\n' ∨ c = '\r' then skipWs cs else c :: cs

/-- Hexadecimal digit value. -/
def hexVal (c : Char) : Option Nat :=
  if '0' ≤ c ∧ c ≤ '9' then some (c.toNat - '0'.toNat)
  else if 'a' ≤ c ∧ c ≤ 'f' then some (c.toNat - 'a'.toNat + 10)
  else if 'A' ≤ c ∧ c ≤ 'F' then some (c.toNat - 'A'.toNat + 10)
  else none

/-- Single-character JSON escapes (`\u` handled separately). -/
def escChar (c : Char) : Option Char :=
  if c = '"' then some '"'
  else if c = '\\' then some '\\'
  else if c = '/' then some '/'
  else if c = 'b' then some (Char.ofNat 8)
  else if c = 'f' then some (Char.ofNat 12)
  else if c = 'n' then some '\n'
  else if c = 'r' then some '\r'
  else if c = 't' then some '\t'
  else none

/-- Parse the body of a JSON string after the opening quote; returns the
decoded string and the remaining input. -/
def parseJStr : List Char → Option (String × List Char)
  | [] => none
  | c :: cs =>
    if c = '"' then some ("", cs)
    else if c = '\\' then
      match cs with
      | 'u' :: h1 :: h2 :: h3 :: h4 :: cs3 =>
        match hexVal h1, hexVal h2, hexVal h3, hexVal h4 with
        | some a, some b, some c2, some d =>
          (parseJStr cs3).map (fun p => (String.mk (Char.ofNat (((a * 16 + b) * 16 + c2) * 16 + d) :: p.1.data), p.2))
        | _, _, _, _ => none
      | e :: cs2 =>
        match escChar e with
        | some ch => (parseJStr cs2).map (fun p => (String.mk (ch :: p.1.data), p.2))
        | none => none
      | [] => none
    else (parseJStr cs).map (fun p => (String.mk (c :: p.1.data), p.2))

/-- Longest digit prefix. -/
def spanDigits : List Char → List Char × List Char
  | [] => ([], [])
  | c :: cs =>
    if c.isDigit then
      let p := spanDigits cs
      (c :: p.1, p.2)
    else ([], c :: cs)

/-- Optional fraction part `.digits` of a JSON number. -/
def parseFrac (cs : List Char) : Option (List Char × List Char) :=
  match cs with
  | '.' :: r =>
    match spanDigits r with
    | ([], _) => none
    | (fs, r2) => some ('.' :: fs, r2)
  | other => some ([], other)

/-- Optional exponent part of a JSON number. -/
def parseExp (cs : List Char) : Option (List Char × List Char) :=
  match cs with
  | c :: r =>
    if c = 'e' ∨ c = 'E' then
      let sr : List Char × List Char :=
        match r with
        | s :: r2 => if s = '+' ∨ s = '-' then ([s], r2) else ([], s :: r2)
        | [] => ([], [])
      match spanDigits sr.2 with
      | ([], _) => none
      | (ds, r2) => some (c :: (sr.1 ++ ds), r2)
    else some ([], c :: r)
  | [] => some ([], [])

/-- JSON number literal (strict: no leading zeros). -/
def parseNum (cs : List Char) : Option (String × List Char) :=
  let sgn : List Char × List Char :=
    match cs with
    | '-' :: r => (['-'], r)
    | other => ([], other)
  match spanDigits sgn.2 with
  | ([], _) => none
  | (ds, r1) =>
    if ds.length > 1 ∧ ds.head? = some '0' then none
    else
      match parseFrac r1 with
      | none => none
      | some (fs, r2) =>
        match parseExp r2 with
        | none => none
        | some (es, r3) => some (String.mk (sgn.1 ++ ds ++ fs ++ es), r3)

/-- Intermediate parse results for the fuel-indexed JSON parser. -/
inductive PRes where
  | v (val : JValue) : PRes
  | elems (vs : List JValue) : PRes
  | mems (ms : List (String × JValue)) : PRes

/-- Parsing modes: one value, the element list of a non-empty array, or the
member list of a non-empty object. -/
inductive PMode where
  | value : PMode
  | arrElems : PMode
  | objMems : PMode

/-- Fuel-indexed JSON parser (structural recursion on the fuel). -/
def parseF : Nat → PMode → List Char → Option (PRes × List Char)
  | 0, _, _ => none
  | f + 1, PMode.value, cs =>
    match skipWs cs with
    | [] => none
    | c :: rest =>
      if c = '"' then (parseJStr rest).map (fun p => (PRes.v (JValue.str p.1), p.2))
      else if c = lbrace then
        match skipWs rest with
        | [] => none
        | d :: rest2 =>
          if d = rbrace then some (PRes.v (JValue.obj []), rest2)
          else
            match parseF f PMode.objMems (d :: rest2) with
            | some (PRes.mems ms, r) => some (PRes.v (JValue.obj (pyDictOf ms)), r)
            | _ => none
      else if c = '[' then
        match skipWs rest with
        | [] => none
        | d :: rest2 =>
          if d = ']' then some (PRes.v (JValue.arr []), rest2)
          else
            match parseF f PMode.arrElems (d :: rest2) with
            | some (PRes.elems vs, r) => some (PRes.v (JValue.arr vs), r)
            | _ => none
      else if c = 't' then
        match rest with
        | 'r' :: 'u' :: 'e' :: r => some (PRes.v (JValue.bool true), r)
        | _ => none
      else if c = 'f' then
        match rest with
        | 'a' :: 'l' :: 's' :: 'e' :: r => some (PRes.v (JValue.bool false), r)
        | _ => none
      else if c = 'n' then
        match rest with
        | 'u' :: 'l' :: 'l' :: r => some (PRes.v JValue.null, r)
        | _ => none
      else
        match parseNum (c :: rest) with
        | some (s, r) => some (PRes.v (JValue.num s), r)
        | none => none
  | f + 1, PMode.arrElems, cs =>
    match parseF f PMode.value cs with
    | some (PRes.v v, r) =>
      match skipWs r with
      | ',' :: r2 =>
        match parseF f PMode.arrElems r2 with
        | some (PRes.elems vs, r3) => some (PRes.elems (v :: vs), r3)
        | _ => none
      | ']' :: r2 => some (PRes.elems [v], r2)
      | _ => none
    | _ => none
  | f + 1, PMode.objMems, cs =>
    match skipWs cs with
    | [] => none
    | c :: r =>
      if c = '"' then
        match parseJStr r with
        | some (k, r2) =>
          match skipWs r2 with
          | ':' :: r3 =>
            match parseF f PMode.value r3 with
            | some (PRes.v v, r4) =>
              match skipWs r4 with
              | ',' :: r5 =>
                match parseF f PMode.objMems r5 with
                | some (PRes.mems ms, r6) => some (PRes.mems ((k, v) :: ms), r6)
                | _ => none
              | d :: r5 => if d = rbrace then some (PRes.mems [(k, v)], r5) else none
              | [] => none
            | _ => none
          | _ => none
        | none => none
      else none

/-- Model of Python `json.loads`: parse one value, require the remainder to
be only whitespace; any failure raises `json.JSONDecodeError`. -/
def json_loads (s : String) : Except String JValue :=
  match parseF (2 * s.data.length + 8) PMode.value s.data with
  | some (PRes.v v, rest) =>
    if skipWs rest = [] then Except.ok v else Except.error "JSONDecodeError"
  | _ => Except.error "JSONDecodeError"

/-! ### DependencyMapResolver (source lines 163-168) -/

/-- The list-comprehension-plus-`dict` step
`dict([s.split("=", maxsplit=2) for s in depends])`: each token is split
with `maxsplit=2`; `dict` raises `ValueError` on any element that is not a
pair. -/
def depsPairs : List String → Except String (List (String × String))
  | [] => Except.ok []
  | s :: rest =>
    match pySplit2 s with
    | [a, b] => (depsPairs rest).map (fun ps => (a, b) :: ps)
    | _ => Except.error "ValueError"

/-- The dependency-map resolution block of `start_http_server`
(lines 163-168): the non-empty token list wins, else a non-empty
`runner_map` JSON string is parsed, else the empty dict. -/
def resolveDeps (depends : List String) (runner_map : Option String) : Except String JValue :=
  match depends with
  | _ :: _ =>
    (depsPairs depends).map
      (fun ps => JValue.obj ((pyDictOf ps).map (fun p => (p.1, JValue.str p.2))))
  | [] =>
    match runner_map with
    | some rm => if rm = "" then Except.ok (JValue.obj []) else json_loads rm
    | none => Except.ok (JValue.obj [])

/-! ### AddressResolver: `urllib.parse.urlparse` and the bind override
(source lines 170-175, repeated at 208-212 and 462-474) -/

/-- Break a character list at the first `:`; `none` when there is no colon. -/
def breakAtColon : List Char → Option (List Char × List Char)
  | [] => none
  | c :: cs =>
    if c = ':' then some ([], cs)
    else (breakAtColon cs).map (fun p => (c :: p.1, p.2))

/-- Valid URL scheme characters after the first (RFC 3986 / CPython). -/
def isSchemeChar (c : Char) : Bool :=
  c.isAlpha ∨ c.isDigit ∨ c = '+' ∨ c = '-' ∨ c = '.'

/-- CPython accepts `<scheme>:` only when the prefix is a well-formed
scheme: non-empty, starts with a letter, rest scheme characters. -/
def validScheme (cs : List Char) : Bool :=
  match cs with
  | [] => false
  | c :: rest => c.isAlpha ∧ rest.all isSchemeChar

/-- The netloc part: after `//`, up to the first `/`, `?` or `#`. -/
def takeNetloc (cs : List Char) : List Char :=
  cs.takeWhile (fun c => ¬(c = '/' ∨ c = '?' ∨ c = '#'))

/-- Strip the userinfo part: everything after the last `@`. -/
def afterLastAt (cs : List Char) : List Char :=
  ((cs.reverse).takeWhile (fun c => c ≠ '@')).reverse

/-- Partition at the first `:` into host part and optional port part. -/
def partitionColon (cs : List Char) : List Char × Option (List Char) :=
  match breakAtColon cs with
  | none => (cs, none)
  | some (a, b) => (a, some b)

/-- Result of `urlparse` restricted to the fields the dispatcher reads:
`scheme`, `hostname` (already lowercased, `None` when empty) and the raw
port text (`None` when absent or empty). -/
structure UrlParts where
  scheme : String
  hostname : Option String
  portRaw : Option String

/-- Split off the scheme: the prefix before the first colon when it is a
valid scheme (lowercased), else no scheme. Returns (scheme chars, rest). -/
def urlSchemeSplit (s : String) : List Char × List Char :=
  match breakAtColon s.data with
  | some (pre, post) =>
    if validScheme pre then (pre.map Char.toLower, post) else ([], s.data)
  | none => ([], s.data)

/-- The netloc of the post-scheme remainder: present only after `//`. -/
def urlNetloc (rest : List Char) : List Char :=
  match rest with
  | '/' :: '/' :: r => takeNetloc r
  | _ => []

/-- Split a hostinfo (netloc with userinfo stripped) into host characters
and optional port characters, with bracketed IPv6 hosts supported. -/
def urlHostPort (hostinfo : List Char) : List Char × Option (List Char) :=
  if hostinfo.contains '[' then
    match breakAtColon (((hostinfo.dropWhile (fun c => c ≠ '[')).drop 1).dropWhile (fun c => c ≠ ']') |>.drop 1) with
    | some (_, p) =>
      (((hostinfo.dropWhile (fun c => c ≠ '[')).drop 1).takeWhile (fun c => c ≠ ']'), some p)
    | none =>
      (((hostinfo.dropWhile (fun c => c ≠ '[')).drop 1).takeWhile (fun c => c ≠ ']'), none)
  else partitionColon hostinfo

/-- CPython's `hostname` property: lowercased, `None` when empty. -/
def hostnameOf (l : List Char) : Option String :=
  if l = [] then none else some (String.mk (l.map Char.toLower))

/-- The raw port text: `None` when absent or empty. -/
def portRawOf (p : Option (List Char)) : Option String :=
  match p with
  | none => none
  | some [] => none
  | some l => some (String.mk l)

/-- Model of `urllib.parse.urlparse` for `scheme://host:port` shapes:
scheme split at the first colon when the prefix is a valid scheme, netloc
after `//`, userinfo stripped at the last `@`, bracketed IPv6 hosts
supported, host lowercased and empty host mapped to `None`, empty port
text mapped to `None`. -/
def urlparse (s : String) : UrlParts :=
  { scheme := String.mk (urlSchemeSplit s).1
    hostname := hostnameOf (urlHostPort (afterLastAt (urlNetloc (urlSchemeSplit s).2))).1
    portRaw := portRawOf (urlHostPort (afterLastAt (urlNetloc (urlSchemeSplit s).2))).2 }

/-- Decimal value of a digit list. -/
def natOfDigits (cs : List Char) : Nat :=
  cs.foldl (fun n c => n * 10 + (c.toNat - '0'.toNat)) 0

/-- Accessing `parsed.port`: `None` when no port text, otherwise the text
must be decimal digits in `0..65535`, else `ValueError` is raised. -/
def parsePort (p : Option String) : Except String (Option Int) :=
  match p with
  | none => Except.ok none
  | some s =>
    if s.data ≠ [] ∧ s.data.all Char.isDigit then
      if natOfDigits s.data ≤ 65535 then Except.ok (some (Int.ofNat (natOfDigits s.data)))
      else Except.error "ValueError"
    else Except.error "ValueError"

/-- The legacy bind override exactly as in the source:
`assert parsed.scheme == "tcp"; host = parsed.hostname or host;
port = parsed.port or port` (a failed assert or an unparseable port is a
fatal error); absent `bind` leaves the pair unchanged. -/
def resolveBind (host : Option String) (port : Option Int) : Option String →
    Except String (Option String × Option Int)
  | none => Except.ok (host, port)
  | some b =>
    if (urlparse b).scheme = "tcp" then
      match parsePort (urlparse b).portRaw with
      | Except.error e => Except.error e
      | Except.ok pp => Except.ok (pyOrStr (urlparse b).hostname host, pyOrInt pp port)
    else Except.error "AssertionError"

/-! ### WorkingDirectoryResolver (source lines 156-162) -/

/-- Working-directory resolution: an explicit directory verbatim, else the
home-expanded bento reference when it is a directory on disk, else `"."`.
`isdir` and `expanduser` stand for the `os.path` oracles. -/
def resolve_working_dir (isdir : String → Bool) (expanduser : String → String)
    (bento : String) (working_dir : Option String) : String :=
  match working_dir with
  | some w => w
  | none => if isdir (expanduser bento) then expanduser bento else "."

/-- The `sys.path` side effect: `if sys.path[0] != working_dir:
sys.path.insert(0, working_dir)`. Indexing an empty `sys.path` raises
`IndexError`. -/
def update_sys_path (sysPath : List String) (wd : String) : Except String (List String) :=
  match sysPath with
  | [] => Except.error "IndexError"
  | p :: rest => Except.ok (if p ≠ wd then wd :: p :: rest else p :: rest)

/-! ### ServiceKindDispatcher: the `start_http_server` command body
(source lines 127-247) -/

/-- The loaded service handle: whether `isinstance(svc, Service)` holds
(legacy style) and its declared name. -/
structure Svc where
  legacy : Bool
  name : String

/-- Process environment: filesystem oracles, the current `sys.path`, and
the external service loader. -/
structure Env where
  isdir : String → Bool
  expanduser : String → String
  sysPath : List String
  load : String → String → Except String Svc

/-- The CLI parameters of the `start-http-server` command. -/
structure HttpArgs where
  bento : String
  service_name : String
  depends : List String
  runner_map : Option String
  bind : Option String
  port : Option Int
  host : Option String
  backlog : Option Int
  working_dir : Option String
  api_workers : Option Int
  timeout : Option Int
  ssl_certfile : Option String
  ssl_keyfile : Option String
  ssl_keyfile_password : Option String
  ssl_version : Option Int
  ssl_cert_reqs : Option Int
  ssl_ca_certs : Option String
  ssl_ciphers : Option String
  timeout_keep_alive : Option Int
  timeout_graceful_shutdown : Option Int
  reload : Bool

/-- Arguments of the full legacy HTTP launcher
`bentoml.start.start_http_server` (source lines 186-204). -/
structure FullLegacyArgs where
  bento : String
  runner_map : JValue
  working_dir : String
  port : Option Int
  host : Option String
  backlog : Option Int
  api_workers : Option Int
  timeout : Option Int
  ssl_keyfile : Option String
  ssl_certfile : Option String
  ssl_keyfile_password : Option String
  ssl_version : Option Int
  ssl_cert_reqs : Option Int
  ssl_ca_certs : Option String
  ssl_ciphers : Option String
  timeout_keep_alive : Option Int
  timeout_graceful_shutdown : Option Int

/-- Arguments of the legacy runner-only launcher
`bentoml.start.start_runner_server` (source lines 214-222). -/
structure RunnerArgs where
  bento : String
  runner_name : String
  working_dir : String
  timeout : Option Int
  port : Option Int
  host : Option String
  backlog : Option Int

/-- Arguments of the current-runtime launcher
`_bentoml_impl.server.serve_http` (source lines 228-247). -/
structure ServeHttpArgs where
  bento : String
  working_dir : String
  port : Option Int
  host : Option String
  backlog : Option Int
  timeout : Option Int
  ssl_keyfile : Option String
  ssl_certfile : Option String
  ssl_keyfile_password : Option String
  ssl_version : Option Int
  ssl_cert_reqs : Option Int
  ssl_ca_certs : Option String
  ssl_ciphers : Option String
  timeout_keep_alive : Option Int
  timeout_graceful_shutdown : Option Int
  dependency_map : JValue
  service_name : String
  reload : Bool

/-- The three mutually exclusive launch strategies the dispatcher can
invoke. -/
inductive LaunchCall where
  | fullLegacy (a : FullLegacyArgs) : LaunchCall
  | legacyRunner (a : RunnerArgs) : LaunchCall
  | currentHttp (a : ServeHttpArgs) : LaunchCall

/-- Observable effects of one dispatcher run, in program order. -/
inductive Event where
  | insertPath (dir : String) : Event
  | warnReloadLegacy : Event
  | printRemote (s : String) : Event
  | injectConfig : Event
  | launch (c : LaunchCall) : Event

/-- The non-fatal warning emitted when `--reload` is combined with a
legacy-style service (source lines 178-179). -/
def warnEvents (reload : Bool) : List Event :=
  if reload then [Event.warnReloadLegacy] else []

/-- The post-load part of `start_http_server` (source lines 177-247):
classify the service and hand off to exactly one launch strategy. -/
def dispatchSvc (args : HttpArgs) (wd : String) (rmap : JValue)
    (host : Option String) (port : Option Int) (svc : Svc) :
    List Event × Except String Unit :=
  if svc.legacy then
    if args.service_name = "" ∨ args.service_name = svc.name then
      (warnEvents args.reload ++
        args.depends.map (fun d => Event.printRemote ("Using remote: " ++ d)) ++
        [Event.launch (LaunchCall.fullLegacy
          { bento := args.bento
            runner_map := rmap
            working_dir := wd
            port := port
            host := host
            backlog := args.backlog
            api_workers := some (pyOrOne args.api_workers)
            timeout := args.timeout
            ssl_keyfile := args.ssl_keyfile
            ssl_certfile := args.ssl_certfile
            ssl_keyfile_password := args.ssl_keyfile_password
            ssl_version := args.ssl_version
            ssl_cert_reqs := args.ssl_cert_reqs
            ssl_ca_certs := args.ssl_ca_certs
            ssl_ciphers := args.ssl_ciphers
            timeout_keep_alive := args.timeout_keep_alive
            timeout_graceful_shutdown := args.timeout_graceful_shutdown })],
        Except.ok ())
    else
      match resolveBind host port args.bind with
      | Except.error e => (warnEvents args.reload, Except.error e)
      | Except.ok hp =>
        (warnEvents args.reload ++ [Event.launch (LaunchCall.legacyRunner
          { bento := args.bento
            runner_name := args.service_name
            working_dir := wd
            timeout := args.timeout
            port := hp.2
            host := hp.1
            backlog := args.backlog })],
          Except.ok ())
  else
    ([Event.injectConfig,
      Event.launch (LaunchCall.currentHttp
        { bento := args.bento
          working_dir := wd
          port := port
          host := host
          backlog := args.backlog
          timeout := args.timeout
          ssl_keyfile := args.ssl_keyfile
          ssl_certfile := args.ssl_certfile
          ssl_keyfile_password := args.ssl_keyfile_password
          ssl_version := args.ssl_version
          ssl_cert_reqs := args.ssl_cert_reqs
          ssl_ca_certs := args.ssl_ca_certs
          ssl_ciphers := args.ssl_ciphers
          timeout_keep_alive := args.timeout_keep_alive
          timeout_graceful_shutdown := args.timeout_graceful_shutdown
          dependency_map := rmap
          service_name := args.service_name
          reload := args.reload })],
      Except.ok ())

/-- The observable trace of the `sys.path` update: an insertion event when
the directory was not already first on the path. -/
def pathEvents (sysPath sp : List String) (wd : String) : List Event :=
  if sp = sysPath then [] else [Event.insertPath wd]

/-- The `start_http_server` command body after the working directory `wd`
has been resolved (source lines 161-247): `sys.path` update,
dependency-map resolution, bind-address resolution, service loading, then
dispatch. Returns the events that happened (in order) and the outcome; a
raised exception aborts the run after the events already emitted. -/
def runCore (args : HttpArgs) (env : Env) (wd : String) : List Event × Except String Unit :=
  match update_sys_path env.sysPath wd with
  | Except.error e => ([], Except.error e)
  | Except.ok sp =>
    match resolveDeps args.depends args.runner_map with
    | Except.error e => (pathEvents env.sysPath sp wd, Except.error e)
    | Except.ok rmap =>
      match resolveBind args.host args.port args.bind with
      | Except.error e => (pathEvents env.sysPath sp wd, Except.error e)
      | Except.ok hp =>
        match env.load args.bento wd with
        | Except.error e => (pathEvents env.sysPath sp wd, Except.error e)
        | Except.ok svc =>
          (pathEvents env.sysPath sp wd ++ (dispatchSvc args wd rmap hp.1 hp.2 svc).1,
            (dispatchSvc args wd rmap hp.1 hp.2 svc).2)

/-- The whole `start_http_server` command body (source lines 156-247). -/
def run (args : HttpArgs) (env : Env) : List Event × Except String Unit :=
  runCore args env (resolve_working_dir env.isdir env.expanduser args.bento args.working_dir)

/-! ### Reference definitions taken from the specification text
(for refinement comparison with the code-derived definitions above) -/

/-- Token splitting as the specification words it: split each entry on the
first `=` into exactly two parts, so an address containing further `=`
characters stays intact; an entry with no `=` is a fatal input error. -/
def refPairsFirstEq : List String → Except String (List (String × String))
  | [] => Except.ok []
  | s :: rest =>
    match pySplit1 s with
    | [a, b] => (refPairsFirstEq rest).map (fun ps => (a, b) :: ps)
    | _ => Except.error "ValueError"

/-- The specification's reference `DependencyMapResolver`: non-empty
token list wins with first-`=` splitting, else a given runner-map string
is parsed as JSON, else the empty mapping. -/
def resolveDepsSpecRef (depends : List String) (runner_map : Option String) :
    Except String JValue :=
  match depends with
  | _ :: _ =>
    (refPairsFirstEq depends).map
      (fun ps => JValue.obj ((pyDictOf ps).map (fun p => (p.1, JValue.str p.2))))
  | [] =>
    match runner_map with
    | some rm => json_loads rm
    | none => Except.ok (JValue.obj [])

/-- Token splitting in the amended reading: an entry must contain exactly
one `=` (a full split into exactly two groups); any other arity is a
fatal input error. -/
def refPairsOneEq : List String → Except String (List (String × String))
  | [] => Except.ok []
  | s :: rest =>
    match splitEqAll s with
    | [a, b] => (refPairsOneEq rest).map (fun ps => (a, b) :: ps)
    | _ => Except.error "ValueError"

/-- The amended reference `DependencyMapResolver`: a non-empty token list
wins, each entry must contain exactly one `=`; else a present *and
non-empty* runner-map string is parsed as JSON (the parsed value need not
be an object); else the empty mapping. -/
def resolveDepsSpecAmended (depends : List String) (runner_map : Option String) :
    Except String JValue :=
  match depends with
  | _ :: _ =>
    (refPairsOneEq depends).map
      (fun ps => JValue.obj ((pyDictOf ps).map (fun p => (p.1, JValue.str p.2))))
  | [] =>
    match runner_map with
    | some rm => if rm = "" then Except.ok (JValue.obj []) else json_loads rm
    | none => Except.ok (JValue.obj [])

/-- The specification's reference `AddressResolver`: absent bind leaves the
discrete pair unchanged; a non-`tcp` scheme is fatal; otherwise the
resolved host/port is the parsed host/port *when the string specifies
one* (an `Option`-level choice, not Python truthiness) and the discrete
value otherwise. -/
def resolveBindSpecRef (host : Option String) (port : Option Int) : Option String →
    Except String (Option String × Option Int)
  | none => Except.ok (host, port)
  | some b =>
    if (urlparse b).scheme = "tcp" then
      match parsePort (urlparse b).portRaw with
      | Except.error e => Except.error e
      | Except.ok pp =>
        Except.ok
          ((match (urlparse b).hostname with
            | some hh => some hh
            | none => host),
            (match pp with
            | some x => some x
            | none => port))
    else Except.error "AssertionError"

/-- The amended reference `AddressResolver`: as `resolveBindSpecRef`, but
the resolved port is the parsed port only when it is nonzero; a parsed
port `0` falls back to the discrete port. -/
def resolveBindSpecAmended (host : Option String) (port : Option Int) : Option String →
    Except String (Option String × Option Int)
  | none => Except.ok (host, port)
  | some b =>
    if (urlparse b).scheme = "tcp" then
      match parsePort (urlparse b).portRaw with
      | Except.error e => Except.error e
      | Except.ok pp =>
        Except.ok
          ((match (urlparse b).hostname with
            | some hh => some hh
            | none => host),
            (match pp with
            | some x => if x = 0 then port else some x
            | none => port))
    else Except.error "AssertionError"

/-! ### Observation helpers -/

/-- Is an event a launch-strategy invocation? -/
def isLaunchEv : Event → Bool
  | Event.launch _ => true
  | Event.insertPath _ => false
  | Event.warnReloadLegacy => false
  | Event.printRemote _ => false
  | Event.injectConfig => false

/-- Number of launch-strategy invocations in a trace. -/
def countLaunch (evs : List Event) : Nat := (evs.filter isLaunchEv).length

/-- Does the trace end with a launch-strategy invocation? -/
def lastIsLaunch (evs : List Event) : Bool :=
  match evs.getLast? with
  | some e => isLaunchEv e
  | none => false

/-- Did a fallible computation succeed? -/
def isOkB {ε : Type} {α : Type} : Except ε α → Bool
  | Except.ok _ => true
  | Except.error _ => false

/-- Did a fallible computation raise? -/
def isErrB {ε : Type} {α : Type} : Except ε α → Bool
  | Except.ok _ => false
  | Except.error _ => true

/-- First-some choice on options (plain `Option` alternative, used to state
lookup lemmas). -/
def optOr {α : Type u} : Option α → Option α → Option α
  | some a, _ => some a
  | none, b => b

/-! ### Concrete fixtures used to evaluate the dispatcher -/

/-- CLI arguments with every optional field unset. -/
def baseArgs : HttpArgs :=
  { bento := ".", service_name := "", depends := [], runner_map := none, bind := none,
    port := none, host := none, backlog := none, working_dir := none, api_workers := none,
    timeout := none, ssl_certfile := none, ssl_keyfile := none, ssl_keyfile_password := none,
    ssl_version := none, ssl_cert_reqs := none, ssl_ca_certs := none, ssl_ciphers := none,
    timeout_keep_alive := none, timeout_graceful_shutdown := none, reload := false }

/-- An environment whose loader yields a legacy-style service named
`"svc"`. -/
def envLegacy : Env :=
  { isdir := fun _ => false, expanduser := fun s => s, sysPath := ["p0"],
    load := fun _ _ => Except.ok { legacy := true, name := "svc" } }

/-- An environment whose loader yields a current-style service named
`"svc"`. -/
def envCurrent : Env :=
  { isdir := fun _ => false, expanduser := fun s => s, sysPath := ["p0"],
    load := fun _ _ => Except.ok { legacy := false, name := "svc" } }

/-- The full legacy launcher call produced by `run baseArgs envLegacy`:
every forwarded field unset except the substituted worker count. -/
def fullNone : FullLegacyArgs :=
  { bento := ".", runner_map := JValue.obj [], working_dir := ".", port := none, host := none,
    backlog := none, api_workers := some 1, timeout := none, ssl_keyfile := none,
    ssl_certfile := none, ssl_keyfile_password := none, ssl_version := none,
    ssl_cert_reqs := none, ssl_ca_certs := none, ssl_ciphers := none,
    timeout_keep_alive := none, timeout_graceful_shutdown := none }

/-- `baseArgs` with a service name different from the loaded service's
declared name, driving the legacy runner-only path. -/
def runnerOtherArgs : HttpArgs := { baseArgs with service_name := "other" }

/-- The runner-only launcher call produced by
`run runnerOtherArgs envLegacy`. -/
def runnerNone : RunnerArgs :=
  { bento := ".", runner_name := "other", working_dir := ".", timeout := none,
    port := none, host := none, backlog := none }

/-- Replace exactly the fields the runner-only path is specified to drop:
worker count, the seven SSL settings, keep-alive and graceful-shutdown
timeouts. -/
def scrubArgs (args : HttpArgs) (w : Option Int) (cf kf kp : Option String)
    (sv cr : Option Int) (ca ci : Option String) (ka gs : Option Int) : HttpArgs :=
  { args with
    api_workers := w
    ssl_certfile := cf
    ssl_keyfile := kf
    ssl_keyfile_password := kp
    ssl_version := sv
    ssl_cert_reqs := cr
    ssl_ca_certs := ca
    ssl_ciphers := ci
    timeout_keep_alive := ka
    timeout_graceful_shutdown := gs }

/-! ### Helper lemmas: dictionaries -/

theorem optOr_some {α : Type u} (a : α) (b : Option α) : optOr (some a) b = some a := rfl

theorem optOr_none {α : Type u} (b : Option α) : optOr none b = b := rfl

theorem find?_pyDictUpd {α : Type u} (d : List (String × α)) (k0 : String) (v : α) (k : String) :
    (pyDictUpd d k0 v).find? (fun q => q.1 == k) =
      if k0 = k then some (k0, v) else d.find? (fun q => q.1 == k) := by
  induction d with
  | nil =>
    by_cases h : k0 = k
    · simp [pyDictUpd, List.find?, h]
    · have hb : (k0 == k) = false := by simp [h]
      simp [pyDictUpd, List.find?, hb, h]
  | cons p rest ih =>
    obtain ⟨pa, pb⟩ := p
    by_cases h1 : pa = k0
    · by_cases h2 : k0 = k
      · subst h2
        have hb : (k0 == k0) = true := by simp
        simp [pyDictUpd, List.find?, h1, hb]
      · have hb0 : (k0 == k) = false := by simp [h2]
        have hbp : (pa == k) = false := by simp [h1, h2]
        simp [pyDictUpd, List.find?, h1, h2, hb0, hbp]
    · by_cases h2 : pa = k
      · subst h2
        have h3 : ¬k0 = pa := fun hh => h1 hh.symm
        simp [pyDictUpd, List.find?, h1, h3]
      · have hbp : (pa == k) = false := by simp [h2]
        simp [pyDictUpd, List.find?, h1, hbp, ih]

theorem find?_append_pairs {α : Type u} (l1 l2 : List (String × α)) (k : String) :
    (l1 ++ l2).find? (fun q => q.1 == k) =
      optOr (l1.find? (fun q => q.1 == k)) (l2.find? (fun q => q.1 == k)) := by
  induction l1 with
  | nil => simp [List.find?, optOr_none]
  | cons p rest ih =>
    obtain ⟨pa, pb⟩ := p
    by_cases h : pa = k
    · have hb : (pa == k) = true := by simp [h]
      simp [List.find?, hb, optOr_some]
    · have hb : (pa == k) = false := by simp [h]
      simp [List.find?, hb, ih]

theorem find?_foldl_upd {α : Type u} (ps : List (String × α)) (k : String) :
    ∀ acc : List (String × α),
      ((ps.foldl (fun d p => pyDictUpd d p.1 p.2) acc).find? (fun q => q.1 == k)) =
        optOr (ps.reverse.find? (fun q => q.1 == k)) (acc.find? (fun q => q.1 == k)) := by
  induction ps with
  | nil => intro acc; simp [List.find?, optOr_none]
  | cons p rest ih =>
    intro acc
    obtain ⟨pa, pb⟩ := p
    rw [List.foldl_cons, ih, find?_pyDictUpd, List.reverse_cons, find?_append_pairs]
    cases hf : rest.reverse.find? (fun q => q.1 == k) with
    | some q => simp [optOr_some]
    | none =>
      by_cases h : pa = k
      · have hb : (pa == k) = true := by simp [h]
        simp [List.find?, hb, h, optOr_none, optOr_some]
      · have hb : (pa == k) = false := by simp [h]
        simp [List.find?, hb, h, optOr_none]

/-- Lookup in a Python dict built from a pair sequence is
last-write-wins: it is the first hit in the *reversed* sequence. -/
theorem find?_pyDictOf {α : Type u} (ps : List (String × α)) (k : String) :
    (pyDictOf ps).find? (fun q => q.1 == k) = ps.reverse.find? (fun q => q.1 == k) := by
  rw [pyDictOf, find?_foldl_upd]
  cases hf : ps.reverse.find? (fun q => q.1 == k) <;> simp [optOr, List.find?]

theorem find?_map_strVal (l : List (String × String)) (k : String) :
    ((l.map (fun p => (p.1, JValue.str p.2))).find? (fun q => q.1 == k)) =
      (l.find? (fun q => q.1 == k)).map (fun p => (p.1, JValue.str p.2)) := by
  induction l with
  | nil => simp [List.find?]
  | cons p rest ih =>
    obtain ⟨pa, pb⟩ := p
    by_cases h : pa = k
    · have hb : (pa == k) = true := by simp [h]
      simp [List.find?, hb]
    · have hb : (pa == k) = false := by simp [h]
      simp [List.find?, hb, ih]

/-! ### Helper lemmas: event traces -/

theorem filter_launch_printRemote (l : List String) :
    (l.map (fun d => Event.printRemote ("Using remote: " ++ d))).filter isLaunchEv = [] := by
  induction l with
  | nil => rfl
  | cons a l ih => simp [isLaunchEv, ih]

theorem filter_launch_warnEvents (r : Bool) : (warnEvents r).filter isLaunchEv = [] := by
  cases r <;> rfl

theorem lastIsLaunch_warnEvents (r : Bool) : lastIsLaunch (warnEvents r) = false := by
  cases r <;> rfl

theorem getLast?_append_singleton {α : Type} (l : List α) (x : α) :
    (l ++ [x]).getLast? = some x := by
  rw [List.getLast?_append_cons]
  rfl

theorem countLaunch_append (a b : List Event) :
    countLaunch (a ++ b) = countLaunch a + countLaunch b := by
  simp [countLaunch, List.filter_append]

theorem countLaunch_warnEvents (r : Bool) : countLaunch (warnEvents r) = 0 := by
  simp [countLaunch, filter_launch_warnEvents]

theorem countLaunch_pathEvents (s1 s2 : List String) (wd : String) :
    countLaunch (pathEvents s1 s2 wd) = 0 := by
  unfold pathEvents
  split <;> rfl

theorem lastIsLaunch_pathEvents (s1 s2 : List String) (wd : String) :
    lastIsLaunch (pathEvents s1 s2 wd) = false := by
  unfold pathEvents
  split <;> rfl

/-- Shape of every dispatch outcome: either the trace ends in exactly one
launch event preceded by non-launch events and the outcome is success, or
the outcome is an error and nothing but the possible reload warning was
emitted. -/
theorem dispatch_cases (args : HttpArgs) (wd : String) (rmap : JValue)
    (host : Option String) (port : Option Int) (svc : Svc) :
    (∃ evs0 c, (dispatchSvc args wd rmap host port svc).1 = evs0 ++ [Event.launch c] ∧
        countLaunch evs0 = 0 ∧ (dispatchSvc args wd rmap host port svc).2 = Except.ok ()) ∨
    (∃ e, (dispatchSvc args wd rmap host port svc).1 = warnEvents args.reload ∧
        (dispatchSvc args wd rmap host port svc).2 = Except.error e) := by
  unfold dispatchSvc
  split
  · split
    · refine Or.inl ⟨_, _, rfl, ?_, rfl⟩
      simp only [countLaunch, List.filter_append, filter_launch_warnEvents,
        filter_launch_printRemote]
      rfl
    · cases hb : resolveBind host port args.bind with
      | error e => exact Or.inr ⟨e, rfl, rfl⟩
      | ok hp =>
        refine Or.inl ⟨_, _, rfl, countLaunch_warnEvents args.reload, rfl⟩
  · exact Or.inl ⟨[Event.injectConfig], _, rfl, rfl, rfl⟩

/-! ### Helper lemmas: splitting, dependency resolver, bind override -/


theorem depsPairs_eq_refPairsOneEq : ∀ l : List String, depsPairs l = refPairsOneEq l := by
  intro l
  induction l with
  | nil => rfl
  | cons s rest ih =>
    simp only [depsPairs, refPairsOneEq, pySplit2, ih]
    rcases h : splitEqAll s with _ | ⟨a, _ | ⟨b, _ | ⟨c, r⟩⟩⟩ <;> simp [regroup2]

theorem isErrB_map {ε α β : Type} (e : Except ε α) (f : α → β) :
    isErrB (e.map f) = isErrB e := by
  cases e <;> rfl

theorem isOkB_map {ε α β : Type} (e : Except ε α) (f : α → β) :
    isOkB (e.map f) = isOkB e := by
  cases e <;> rfl

theorem depsPairs_isErr_iff : ∀ l : List String,
    isErrB (depsPairs l) = true ↔ ∃ s, s ∈ l ∧ (splitEqAll s).length ≠ 2 := by
  intro l
  induction l with
  | nil => simp [depsPairs, isErrB]
  | cons s rest ih =>
    simp only [depsPairs, pySplit2]
    rcases h : splitEqAll s with _ | ⟨a, _ | ⟨b, _ | ⟨c, r⟩⟩⟩
    · simp [regroup2, isErrB, h]
    · simp [regroup2, isErrB, h]
    · simp only [regroup2, isErrB_map, ih]
      constructor
      · intro ⟨t, ht, hl⟩
        exact ⟨t, List.mem_cons_of_mem s ht, hl⟩
      · intro ⟨t, ht, hl⟩
        rcases List.mem_cons.mp ht with he | hm
        · subst he
          rw [h] at hl
          simp at hl
        · exact ⟨t, hm, hl⟩
    · simp [regroup2, isErrB, h]

theorem pyOrStr_idem (a b : Option String) : pyOrStr a (pyOrStr a b) = pyOrStr a b := by
  cases a with
  | none => rfl
  | some s =>
    by_cases h : s = "" <;> simp [pyOrStr, h]

theorem pyOrInt_idem (a b : Option Int) : pyOrInt a (pyOrInt a b) = pyOrInt a b := by
  cases a with
  | none => rfl
  | some n =>
    by_cases h : n = 0 <;> simp [pyOrInt, h]

theorem resolveBind_again (h : Option String) (p : Option Int) (b : Option String)
    (h1 : Option String) (p1 : Option Int)
    (hr : resolveBind h p b = Except.ok (h1, p1)) :
    resolveBind h1 p1 b = Except.ok (h1, p1) := by
  cases b with
  | none => simp [resolveBind] at hr ⊢
  | some s =>
    simp only [resolveBind] at hr ⊢
    by_cases hs : (urlparse s).scheme = "tcp"
    · rw [if_pos hs] at hr ⊢
      cases hpp : parsePort (urlparse s).portRaw with
      | error e => rw [hpp] at hr; cases hr
      | ok pp =>
        rw [hpp] at hr
        have hr2 : (pyOrStr (urlparse s).hostname h, pyOrInt pp p) = (h1, p1) := by
          injection hr
        have hh : h1 = pyOrStr (urlparse s).hostname h := congrArg Prod.fst hr2.symm
        have hp : p1 = pyOrInt pp p := congrArg Prod.snd hr2.symm
        rw [hh, hp]
        simp [pyOrStr_idem, pyOrInt_idem]
    · rw [if_neg hs] at hr
      cases hr

theorem hostnameOf_ne_empty (l : List Char) (x : String)
    (h : hostnameOf l = some x) : x ≠ "" := by
  unfold hostnameOf at h
  split at h
  · cases h
  · injection h with h2
    intro he
    rw [he] at h2
    have hd := congrArg String.data h2
    simp at hd
    simp_all

theorem urlparse_hostname_ne_empty (s : String) (x : String)
    (h : (urlparse s).hostname = some x) : x ≠ "" :=
  hostnameOf_ne_empty _ x h

theorem resolveBind_eq_specAmended (h : Option String) (p : Option Int) (b : Option String) :
    resolveBind h p b = resolveBindSpecAmended h p b := by
  cases b with
  | none => rfl
  | some s =>
    simp only [resolveBind, resolveBindSpecAmended]
    by_cases hs : (urlparse s).scheme = "tcp"
    · rw [if_pos hs, if_pos hs]
      cases hpp : parsePort (urlparse s).portRaw with
      | error e => rfl
      | ok pp =>
        refine congrArg Except.ok (Prod.ext ?_ ?_)
        · cases hn : (urlparse s).hostname with
          | none => simp [pyOrStr]
          | some x =>
            have hne := urlparse_hostname_ne_empty s x hn
            simp [pyOrStr, hne]
        · cases pp with
          | none => simp [pyOrInt]
          | some n =>
            by_cases hz : n = 0 <;> simp [pyOrInt, hz]
    · rw [if_neg hs, if_neg hs]

theorem resolveDeps_eq_specAmended (d : List String) (rm : Option String) :
    resolveDeps d rm = resolveDepsSpecAmended d rm := by
  cases d with
  | nil => rfl
  | cons s rest => simp [resolveDeps, resolveDepsSpecAmended, depsPairs_eq_refPairsOneEq]

/-- C4 counterexample: the claim says a depends entry is split on its
*first* `=` only, so an address containing a further `=` stays intact
(`"a=b=c"` would map `"a"` to `"b=c"`, as the reference resolver does),
but the code splits with `maxsplit=2` and `dict(...)` then raises
`ValueError` on the resulting 3-element list. -/
theorem spec_c4_counterexample :
    resolveDeps ["a=b=c"] none = Except.error "ValueError" ∧
    resolveDepsSpecRef ["a=b=c"] none = Except.ok (JValue.obj [("a", JValue.str "b=c")]) :=
  ⟨rfl, rfl⟩

/-- C4, amended: the dependency resolver equals the reference definition
in which a non-empty token list wins and each entry must contain exactly
one `=` (an entry with no `=` or more than one `=` is a fatal error, so
an address can never contain `=`), the JSON form being ignored entirely;
else a present and non-empty runner-map string parses as JSON (any JSON
value, not only an object); else the mapping is empty. -/
theorem spec_c4_amended (depends : List String) (runner_map : Option String) :
    resolveDeps depends runner_map = resolveDepsSpecAmended depends runner_map :=
  resolveDeps_eq_specAmended depends runner_map

/-- C5 counterexample: the claim says a runner-map string that decodes to
a non-object raises a fatal error, but `json.loads` output is never
checked: `"[1, 2]"` is accepted and the array is passed through. (Also,
the fatal set is larger than claimed: `"a=b=c"` raises although it does
contain an `=`.) -/
theorem spec_c5_counterexample :
    resolveDeps [] (some "[1, 2]") = Except.ok (JValue.arr [JValue.num "1", JValue.num "2"]) ∧
    resolveDeps ["a=b=c"] none = Except.error "ValueError" :=
  ⟨rfl, rfl⟩

/-- C5, amended: the dependency resolver fails exactly when some depends
token does not split into exactly two groups on `=` (no `=`, or two or
more `=`), or, when the token list is empty and a non-empty runner-map
string is present, when that string is not valid JSON; a string decoding
to a non-object JSON value is *not* an error. -/
theorem spec_c5_amended (depends : List String) (runner_map : Option String) :
    isErrB (resolveDeps depends runner_map) = true ↔
      ((depends ≠ [] ∧ ∃ s, s ∈ depends ∧ (splitEqAll s).length ≠ 2) ∨
        (depends = [] ∧ ∃ j, runner_map = some j ∧ j ≠ "" ∧ isErrB (json_loads j) = true)) := by
  cases depends with
  | nil =>
    simp only [resolveDeps]
    cases runner_map with
    | none => simp [isErrB]
    | some j =>
      by_cases hj : j = ""
      · simp [hj, isErrB]
      · simp [hj, isErrB]
  | cons s rest =>
    simp only [resolveDeps, isErrB_map, depsPairs_isErr_iff]
    simp

/-- C5 witness: a depends token without `=` is a fatal error. -/
theorem spec_c5_witness : isErrB (resolveDeps ["noequalsign"] none) = true := by
  refine (spec_c5_amended ["noequalsign"] none).mpr (Or.inl ⟨by simp, "noequalsign", by simp, by decide⟩)

/-- C6 counterexample: the claim says the resolved port is the parsed
port whenever the bind string specifies one, but the code uses Python
truthiness (`parsed.port or port`), so the specified port `0` in
`tcp://example.com:0` falls back to the discrete port `3000` instead of
resolving to `0` as the reference resolver does. -/
theorem spec_c6_counterexample :
    resolveBind (some "h") (some 3000) (some "tcp://example.com:0") =
      Except.ok (some "example.com", some 3000) ∧
    resolveBindSpecRef (some "h") (some 3000) (some "tcp://example.com:0") =
      Except.ok (some "example.com", some 0) :=
  ⟨rfl, rfl⟩

/-- C6, amended: the bind resolver equals the reference definition in
which an absent bind string leaves the discrete pair unchanged, a
non-`tcp` scheme is a fatal error, the resolved host is the parsed host
when one is specified (else the discrete host), and the resolved port is
the parsed port when a *nonzero* one is specified — a parsed port `0`
falls back to the discrete port. -/
theorem spec_c6_amended (host : Option String) (port : Option Int) (bind : Option String) :
    resolveBind host port bind = resolveBindSpecAmended host port bind :=
  resolveBind_eq_specAmended host port bind

/-- C10: applying the legacy-bind override a second time is idempotent:
for every bind string whose first application succeeds (scheme check and
port parse included), re-parsing and re-assigning
`host := parsed.hostname or host`, `port := parsed.port or port` — as the
code does a second time on the runner-only path and in the runner-server
command — returns exactly the pair produced by the first application. -/
theorem spec_c10_bind_idempotent (host : Option String) (port : Option Int) (b : String)
    (h1 : Option String) (p1 : Option Int)
    (hr : resolveBind host port (some b) = Except.ok (h1, p1)) :
    resolveBind h1 p1 (some b) = Except.ok (h1, p1) :=
  resolveBind_again host port (some b) h1 p1 hr

/-- C10 witness: re-applying the override for `tcp://X.com:8080` to the
already-resolved pair leaves it unchanged. -/
theorem spec_c10_witness :
    resolveBind (some "x.com") (some 8080) (some "tcp://X.com:8080") =
      Except.ok (some "x.com", some 8080) :=
  spec_c10_bind_idempotent (some "h") none "tcp://X.com:8080" (some "x.com") (some 8080) rfl

/-- C7: for every well-formed depends token list, the resolved dependency
map is last-write-wins: looking up any name yields the address of the
*last* entry with that name (the first hit in the reversed pair list),
and names not re-bound are unaffected. -/
theorem spec_c7_last_write_wins (depends : List String) (runner_map : Option String)
    (ps : List (String × String)) (hps : depsPairs depends = Except.ok ps)
    (hne : depends ≠ []) :
    ∃ dd, resolveDeps depends runner_map = Except.ok (JValue.obj dd) ∧
      ∀ k, lookupD dd k =
        (ps.reverse.find? (fun q => q.1 == k)).map (fun q => JValue.str q.2) := by
  cases depends with
  | nil => exact absurd rfl hne
  | cons s rest =>
    simp only [resolveDeps]
    rw [hps]
    refine ⟨_, rfl, ?_⟩
    intro k
    unfold lookupD
    rw [find?_map_strVal, find?_pyDictOf]
    cases hf : ps.reverse.find? (fun q => q.1 == k) <;> simp [hf]

/-- C7 witness: with `["a=1", "b=2", "a=3"]`, name `a` maps to `3` (the
later entry wins) and `b` still maps to `2`. -/
theorem spec_c7_witness :
    ∃ dd, resolveDeps ["a=1", "b=2", "a=3"] none = Except.ok (JValue.obj dd) ∧
      lookupD dd "a" = some (JValue.str "3") ∧ lookupD dd "b" = some (JValue.str "2") := by
  obtain ⟨dd, h1, h2⟩ :=
    spec_c7_last_write_wins ["a=1", "b=2", "a=3"] none
      [("a", "1"), ("b", "2"), ("a", "3")] rfl (by simp)
  refine ⟨dd, h1, ?_, ?_⟩
  · rw [h2 "a"]; rfl
  · rw [h2 "b"]; rfl

/-- C9: the working-directory resolver returns an explicit directory
verbatim, else the home-expanded bento reference when it is a directory
on disk, else `"."`; and the `sys.path` update is idempotent: a second
update with the same directory returns the path unchanged, with the
directory as its head. -/
theorem spec_c9_working_dir (isdir : String → Bool) (expanduser : String → String)
    (bento : String) :
    (∀ w, resolve_working_dir isdir expanduser bento (some w) = w) ∧
    (isdir (expanduser bento) = true →
      resolve_working_dir isdir expanduser bento none = expanduser bento) ∧
    (isdir (expanduser bento) = false →
      resolve_working_dir isdir expanduser bento none = ".") ∧
    (∀ (sp : List String) (wd : String) (sp1 : List String),
      update_sys_path sp wd = Except.ok sp1 →
        update_sys_path sp1 wd = Except.ok sp1 ∧ sp1.head? = some wd) := by
  refine ⟨fun w => rfl, fun h => by simp [resolve_working_dir, h],
    fun h => by simp [resolve_working_dir, h], ?_⟩
  intro sp wd sp1 hu
  cases sp with
  | nil => cases hu
  | cons p rest =>
    simp only [update_sys_path] at hu
    injection hu with h2
    rw [← h2]
    by_cases hp : p = wd
    · subst hp
      simp [update_sys_path]
    · simp [update_sys_path, hp]

/-- C9 witness: concrete working-directory resolution and a concrete
idempotent `sys.path` update. -/
theorem spec_c9_witness :
    resolve_working_dir (fun _ => true) (fun s => s ++ "e") "b" none = "be" ∧
    update_sys_path ["a"] "w" = Except.ok ["w", "a"] ∧
    update_sys_path ["w", "a"] "w" = Except.ok ["w", "a"] ∧
    (["w", "a"] : List String).head? = some "w" := by
  have hc := spec_c9_working_dir (fun _ => true) (fun s => s ++ "e") "b"
  have hi := hc.2.2.2 ["a"] "w" ["w", "a"] rfl
  exact ⟨hc.2.1 rfl, rfl, hi.1, hi.2⟩

/-- C2: every run of the HTTP start command invokes exactly one launch
strategy when it succeeds — as the final event of the trace, hence after
working-directory resolution, dependency-map resolution, bind-address
resolution and service loading have all succeeded — and invokes none at
all when any resolution step fails. -/
theorem spec_c2_single_launch (args : HttpArgs) (env : Env) :
    countLaunch (run args env).1 = (if isOkB (run args env).2 then 1 else 0) ∧
    lastIsLaunch (run args env).1 = isOkB (run args env).2 := by
  unfold run runCore
  cases hu : update_sys_path env.sysPath (resolve_working_dir env.isdir env.expanduser args.bento args.working_dir) with
  | error e => simp [countLaunch, lastIsLaunch, isOkB]
  | ok sp =>
    cases hd : resolveDeps args.depends args.runner_map with
    | error e => simp [countLaunch_pathEvents, lastIsLaunch_pathEvents, isOkB]
    | ok rmap =>
      cases hb : resolveBind args.host args.port args.bind with
      | error e => simp [countLaunch_pathEvents, lastIsLaunch_pathEvents, isOkB]
      | ok hp =>
        cases hl : env.load args.bento (resolve_working_dir env.isdir env.expanduser args.bento args.working_dir) with
        | error e => simp [countLaunch_pathEvents, lastIsLaunch_pathEvents, isOkB]
        | ok svc =>
          simp only []
          rcases dispatch_cases args (resolve_working_dir env.isdir env.expanduser args.bento args.working_dir) rmap hp.1 hp.2 svc with
            ⟨evs0, c, h1, h2, h3⟩ | ⟨e, h1, h2⟩
          · rw [h1, h3]
            constructor
            · rw [countLaunch_append, countLaunch_append, countLaunch_pathEvents, h2]
              rfl
            · simp only [lastIsLaunch, isOkB, ← List.append_assoc, getLast?_append_singleton]
              rfl
          · rw [h1, h2]
            constructor
            · rw [countLaunch_append, countLaunch_pathEvents, countLaunch_warnEvents]
              rfl
            · cases hr : args.reload with
              | false => simp [warnEvents, hr, lastIsLaunch_pathEvents, isOkB]
              | true =>
                simp only [warnEvents, hr, if_true, lastIsLaunch, isOkB, getLast?_append_singleton]
                rfl

/-- C1: given a successfully loaded service, the dispatcher selects the
full legacy HTTP launcher when the service is legacy-style and the
requested name is empty or equals the declared name; the legacy
runner-only launcher with `runner_name = service_name` when the service
is legacy-style and the name differs; and the current-runtime HTTP
launcher for a current-style service regardless of the requested name,
injecting configuration into the service immediately before the launch
call. -/
theorem spec_c1_dispatch (args : HttpArgs) (env : Env) (svc : Svc) (evs : List Event)
    (hload : env.load args.bento
        (resolve_working_dir env.isdir env.expanduser args.bento args.working_dir) =
      Except.ok svc)
    (hrun : run args env = (evs, Except.ok ())) :
    (svc.legacy = true → (args.service_name = "" ∨ args.service_name = svc.name) →
      ∃ a, evs.getLast? = some (Event.launch (LaunchCall.fullLegacy a))) ∧
    (svc.legacy = true → ¬(args.service_name = "" ∨ args.service_name = svc.name) →
      ∃ a, evs.getLast? = some (Event.launch (LaunchCall.legacyRunner a)) ∧
        a.runner_name = args.service_name) ∧
    (svc.legacy = false →
      ∃ a pre, evs = pre ++ [Event.injectConfig, Event.launch (LaunchCall.currentHttp a)] ∧
        a.service_name = args.service_name ∧ a.reload = args.reload) := by
  unfold run runCore at hrun
  cases hu : update_sys_path env.sysPath
      (resolve_working_dir env.isdir env.expanduser args.bento args.working_dir) with
  | error e => simp only [hu] at hrun; simp at hrun
  | ok sp =>
    simp only [hu] at hrun
    cases hd : resolveDeps args.depends args.runner_map with
    | error e => simp only [hd] at hrun; simp at hrun
    | ok rmap =>
      simp only [hd] at hrun
      cases hb : resolveBind args.host args.port args.bind with
      | error e => simp only [hb] at hrun; simp at hrun
      | ok hp =>
        obtain ⟨h1, p1⟩ := hp
        simp only [hb, hload] at hrun
        have hev := congrArg Prod.fst hrun
        have hok := congrArg Prod.snd hrun
        simp only [] at hev hok
        refine ⟨?_, ?_, ?_⟩
        · intro hleg hname
          rw [← hev]
          simp only [dispatchSvc, hleg, eq_self_iff_true, if_true]
          rw [if_pos hname]
          exact ⟨_, by simp only [← List.append_assoc]; exact getLast?_append_singleton _ _⟩
        · intro hleg hname
          have hb2 := resolveBind_again args.host args.port args.bind h1 p1 hb
          rw [← hev]
          simp only [dispatchSvc, hleg, eq_self_iff_true, if_true]
          rw [if_neg hname, hb2]
          exact ⟨_, by simp only [← List.append_assoc]; exact getLast?_append_singleton _ _, rfl⟩
        · intro hleg
          rw [← hev]
          simp only [dispatchSvc, hleg, Bool.false_eq_true, if_false]
          exact ⟨_, _, rfl, rfl, rfl⟩

/-- C1 witness: a legacy service named `svc` with empty requested name
launches the full legacy server; a current-style service launches the
current-runtime server with configuration injected before the launch. -/
theorem spec_c1_witness :
    (∃ a, (run baseArgs envLegacy).1.getLast? =
        some (Event.launch (LaunchCall.fullLegacy a))) ∧
    (∃ a pre, (run baseArgs envCurrent).1 =
        pre ++ [Event.injectConfig, Event.launch (LaunchCall.currentHttp a)] ∧
        a.service_name = baseArgs.service_name ∧ a.reload = baseArgs.reload) :=
  ⟨(spec_c1_dispatch baseArgs envLegacy { legacy := true, name := "svc" }
      (run baseArgs envLegacy).1 rfl rfl).1 rfl (Or.inl rfl),
    (spec_c1_dispatch baseArgs envCurrent { legacy := false, name := "svc" }
      (run baseArgs envCurrent).1 rfl rfl).2.2 rfl⟩

theorem getLast?_pathEvents_not_launch (s1 s2 : List String) (wd : String) (c : LaunchCall) :
    (pathEvents s1 s2 wd).getLast? ≠ some (Event.launch c) := by
  unfold pathEvents
  split <;> simp

theorem getLast?_append_pair (l : List Event) (x y : Event) :
    (l ++ [x, y]).getLast? = some y := by
  rw [List.getLast?_append_cons]
  rfl

/-- C3, amended: with the legacy bind string absent, every configuration
field left unset at the CLI boundary (host, port, backlog, timeout, SSL
settings, keep-alive and graceful-shutdown timeouts) is forwarded unset
to whichever launch strategy receives it — except the worker count: the
full legacy HTTP path replaces an unset worker count by the
dispatcher-chosen default `1` (the runner-only and current-runtime calls
do not take a worker count at all). -/
theorem spec_c3_unset_forwarding (args : HttpArgs) (env : Env)
    (hbind : args.bind = none) (hhost : args.host = none) (hport : args.port = none)
    (hback : args.backlog = none) (haw : args.api_workers = none) (hto : args.timeout = none)
    (hsc : args.ssl_certfile = none) (hsk : args.ssl_keyfile = none)
    (hskp : args.ssl_keyfile_password = none) (hsv : args.ssl_version = none)
    (hscr : args.ssl_cert_reqs = none) (hsca : args.ssl_ca_certs = none)
    (hsci : args.ssl_ciphers = none) (hka : args.timeout_keep_alive = none)
    (hgs : args.timeout_graceful_shutdown = none) :
    ∀ c, (run args env).1.getLast? = some (Event.launch c) →
      match c with
      | LaunchCall.fullLegacy a =>
        a.port = none ∧ a.host = none ∧ a.backlog = none ∧ a.timeout = none ∧
        a.ssl_keyfile = none ∧ a.ssl_certfile = none ∧ a.ssl_keyfile_password = none ∧
        a.ssl_version = none ∧ a.ssl_cert_reqs = none ∧ a.ssl_ca_certs = none ∧
        a.ssl_ciphers = none ∧ a.timeout_keep_alive = none ∧
        a.timeout_graceful_shutdown = none ∧ a.api_workers = some 1
      | LaunchCall.legacyRunner a =>
        a.timeout = none ∧ a.port = none ∧ a.host = none ∧ a.backlog = none
      | LaunchCall.currentHttp a =>
        a.port = none ∧ a.host = none ∧ a.backlog = none ∧ a.timeout = none ∧
        a.ssl_keyfile = none ∧ a.ssl_certfile = none ∧ a.ssl_keyfile_password = none ∧
        a.ssl_version = none ∧ a.ssl_cert_reqs = none ∧ a.ssl_ca_certs = none ∧
        a.ssl_ciphers = none ∧ a.timeout_keep_alive = none ∧
        a.timeout_graceful_shutdown = none := by
  intro c hc
  unfold run runCore at hc
  cases hu : update_sys_path env.sysPath
      (resolve_working_dir env.isdir env.expanduser args.bento args.working_dir) with
  | error e => simp only [hu] at hc; simp at hc
  | ok sp =>
    simp only [hu] at hc
    cases hd : resolveDeps args.depends args.runner_map with
    | error e =>
      simp only [hd] at hc
      exact absurd hc (getLast?_pathEvents_not_launch _ _ _ _)
    | ok rmap =>
      simp only [hd] at hc
      rw [hbind, hhost, hport] at hc
      simp only [resolveBind] at hc
      cases hl : env.load args.bento
          (resolve_working_dir env.isdir env.expanduser args.bento args.working_dir) with
      | error e =>
        simp only [hl] at hc
        exact absurd hc (getLast?_pathEvents_not_launch _ _ _ _)
      | ok svc =>
        simp only [hl] at hc
        unfold dispatchSvc at hc
        split at hc
        · split at hc
          · simp only [← List.append_assoc, getLast?_append_singleton] at hc
            injection hc with hc2
            injection hc2 with hc3
            subst hc3
            simp [pyOrOne, haw, hback, hto, hsc, hsk, hskp, hsv, hscr, hsca, hsci, hka, hgs]
          · rw [hbind] at hc
            simp only [resolveBind] at hc
            simp only [← List.append_assoc, getLast?_append_singleton] at hc
            injection hc with hc2
            injection hc2 with hc3
            subst hc3
            simp [hto, hback]
        · simp only [getLast?_append_pair] at hc
          injection hc with hc2
          injection hc2 with hc3
          subst hc3
          simp [hback, hto, hsc, hsk, hskp, hsv, hscr, hsca, hsci, hka, hgs]

/-- C3 counterexample: the claim says an unset worker count is passed
through unset on every path, including the full legacy HTTP path, but
with all CLI fields unset the full legacy launcher receives
`api_workers = 1` (from `api_workers or 1`), not the unset value. -/
theorem spec_c3_counterexample :
    run baseArgs envLegacy =
      ([Event.insertPath ".", Event.launch (LaunchCall.fullLegacy fullNone)], Except.ok ()) ∧
    baseArgs.api_workers = none ∧ fullNone.api_workers = some 1 :=
  ⟨rfl, rfl, rfl⟩

/-- C3 witness: in a concrete all-unset run, the full legacy launcher
receives unset host and port but worker count `1`. -/
theorem spec_c3_witness :
    fullNone.port = none ∧ fullNone.host = none ∧ fullNone.api_workers = some 1 := by
  have h := spec_c3_unset_forwarding baseArgs envLegacy rfl rfl rfl rfl rfl rfl rfl rfl rfl
    rfl rfl rfl rfl rfl rfl (LaunchCall.fullLegacy fullNone) rfl
  obtain ⟨h1, h2, _, _, _, _, _, _, _, _, _, _, _, h14⟩ := h
  exact ⟨h1, h2, h14⟩

/-- C8: on the legacy runner-only path the dispatcher forwards to the
runner launcher exactly the bento reference, the runner name (the
requested service name), the resolved working directory, and the reduced
configuration subset consisting of timeout, port, host and backlog — the
bind pair being the one produced by the bind resolver; and the run is
completely independent of the worker count, the seven SSL settings, the
keep-alive and graceful-shutdown timeouts, which therefore never reach
the launcher, as the dependency map also does not. -/
theorem spec_c8_runner_frame (args : HttpArgs) (env : Env) (svc : Svc) (evs : List Event)
    (hload : env.load args.bento
        (resolve_working_dir env.isdir env.expanduser args.bento args.working_dir) =
      Except.ok svc)
    (hleg : svc.legacy = true)
    (hname : ¬(args.service_name = "" ∨ args.service_name = svc.name))
    (hrun : run args env = (evs, Except.ok ())) :
    (∃ h1 p1, resolveBind args.host args.port args.bind = Except.ok (h1, p1) ∧
      evs.getLast? = some (Event.launch (LaunchCall.legacyRunner
        { bento := args.bento, runner_name := args.service_name,
          working_dir := resolve_working_dir env.isdir env.expanduser args.bento args.working_dir,
          timeout := args.timeout, port := p1, host := h1, backlog := args.backlog }))) ∧
    (∀ w cf kf kp sv cr ca ci ka gs,
      run (scrubArgs args w cf kf kp sv cr ca ci ka gs) env = run args env) := by
  constructor
  · unfold run runCore at hrun
    cases hu : update_sys_path env.sysPath
        (resolve_working_dir env.isdir env.expanduser args.bento args.working_dir) with
    | error e => simp only [hu] at hrun; simp at hrun
    | ok sp =>
      simp only [hu] at hrun
      cases hd : resolveDeps args.depends args.runner_map with
      | error e => simp only [hd] at hrun; simp at hrun
      | ok rmap =>
        simp only [hd] at hrun
        cases hb : resolveBind args.host args.port args.bind with
        | error e => simp only [hb] at hrun; simp at hrun
        | ok hp =>
          obtain ⟨h1, p1⟩ := hp
          simp only [hb, hload] at hrun
          have hev := congrArg Prod.fst hrun
          simp only [] at hev
          have hb2 := resolveBind_again args.host args.port args.bind h1 p1 hb
          rw [← hev]
          simp only [dispatchSvc, hleg, eq_self_iff_true, if_true]
          rw [if_neg hname, hb2]
          exact ⟨h1, p1, rfl,
            by simp only []; simp only [← List.append_assoc]
               exact getLast?_append_singleton _ _⟩
  · intro w cf kf kp sv cr ca ci ka gs
    obtain ⟨b, sn, dep, rm0, bi, po, ho, ba, wdi, aw, ti, sc, sk, skp, sv0, scr, sca, sci,
      tka0, tgs0, rl⟩ := args
    unfold scrubArgs run runCore
    simp only []
    cases hu : update_sys_path env.sysPath (resolve_working_dir env.isdir env.expanduser b wdi) with
    | error e => simp only [hu]
    | ok sp =>
      simp only [hu]
      cases hd : resolveDeps dep rm0 with
      | error e => simp only [hd]
      | ok rmap =>
        simp only [hd]
        cases hb : resolveBind ho po bi with
        | error e => simp only [hb]
        | ok hp =>
          simp only [hb]
          simp only [hload]
          simp only [dispatchSvc, hleg, eq_self_iff_true, if_true]
          simp only [if_neg hname]

/-- C8 witness: a concrete runner-only run launches with exactly the
reduced argument record, and changing the dropped fields does not change
the run at all. -/
theorem spec_c8_witness :
    (run runnerOtherArgs envLegacy).1.getLast? =
      some (Event.launch (LaunchCall.legacyRunner runnerNone)) ∧
    run (scrubArgs runnerOtherArgs (some 7) (some "c") none none none none none none none none)
        envLegacy =
      run runnerOtherArgs envLegacy := by
  have h := spec_c8_runner_frame runnerOtherArgs envLegacy { legacy := true, name := "svc" }
    (run runnerOtherArgs envLegacy).1 rfl rfl (by simp [runnerOtherArgs, baseArgs]) rfl
  constructor
  · obtain ⟨h1, p1, hrb, hlast⟩ := h.1
    have hpair : ((none : Option String), (none : Option Int)) = (h1, p1) := by
      have h0 : resolveBind runnerOtherArgs.host runnerOtherArgs.port runnerOtherArgs.bind =
          Except.ok ((none : Option String), (none : Option Int)) := rfl
      have := h0.symm.trans hrb
      injection this
    obtain ⟨e1, e2⟩ := Prod.mk.injEq .. |>.mp hpair
    rw [← e1] at hlast
    rw [← e2] at hlast
    exact hlast
  · exact h.2 (some 7) (some "c") none none none none none none none none
